import Mathlib

/-!
A verification development for the cursor core of a DWARF reading library.

The development shallowly embeds:
  * the zero-copy slice backend (`EndianSlice`, src/read/endian_slice.rs),
  * the format/offset codec on the `Reader` contract (src/read/reader.rs),
  * the encoded-pointer resolver (`parse_encoded_pointer`, src/read/mod.rs),
  * the buffered file backend (`SectionBuffer::read_bytes_at`, examples/bufreader.rs),
  * `DebugAddr::get_address` (src/read/addr.rs).

Machine integers are embedded as `Nat` with explicit `% 2 ^ 64` where the
source relies on wrapping arithmetic.  Stateful operations that take a Rust
`&mut self` receiver are embedded in state-passing style: an operation on a
cursor returns a pair of the `Except` result and the updated cursor, and on
failure the returned cursor is exactly the input cursor whenever the source
returns early without mutating `self`.
-/

/-- The parse errors of the library (src/read/mod.rs, `enum Error`).
Only the variants exercised by the embedded core are listed; the source enum
has further variants used by the out-of-scope section decoders. -/
inductive Error where
  | Io
  | PcRelativePointerButSectionBaseIsUndefined
  | TextRelativePointerButTextBaseIsUndefined
  | DataRelativePointerButDataBaseIsUndefined
  | FuncRelativePointerInBadContext
  | BadUnsignedLeb128
  | BadSignedLeb128
  | UnknownReservedLength
  | UnexpectedEof
  | UnsupportedAddressSize (size : Nat)
  | UnsupportedOffsetSize (size : Nat)
  | UnsupportedOffset
  | BadUtf8
  | UnknownPointerEncoding
  | UnsupportedPointerEncoding
  deriving DecidableEq, Repr

/-- Whether the format of a compilation unit is 32- or 64-bit
(src/common.rs, `enum Format`). -/
inductive Format where
  | Dwarf64
  | Dwarf32
  deriving DecidableEq, Repr

/-- Modelled from the spec: runtime-selected endianness, "a two-variant
tagged enum {Little, Big} carrying a byte-swap strategy" (spec section 9).
The source's `endianity.rs` is not among the provided files. -/
inductive Endian where
  | little
  | big
  deriving DecidableEq, Repr

/-- Modelled from the spec: the byte-swap strategy of an endianness, i.e. the
"one generic read N bytes and byte-swap per endianness primitive"
(spec section 4.1).  Little endian composes from least-significant byte
first, big endian from most-significant byte first. -/
def Endian.readWord (e : Endian) (bytes : List Nat) : Nat :=
  match e with
  | .little => bytes.foldr (fun b acc => b + 256 * acc) 0
  | .big => bytes.foldl (fun acc b => 256 * acc + b) 0

/-- A `&[u8]` slice with endianity metadata
(src/read/endian_slice.rs, `struct EndianSlice`).

The Rust value is a borrowed slice, i.e. a pointer plus a length.  The `pos`
field embeds the numeric value of that start pointer (as an offset into the
underlying allocation), which is what `offset_from`'s pointer arithmetic
observes; `slice` embeds the pointed-to bytes. -/
structure EndianSlice where
  pos : Nat
  slice : List Nat
  endian : Endian
  deriving DecidableEq, Repr

namespace EndianSlice

/-- `EndianSlice::offset_from`: distance of `self`'s start from `base`'s
start, `(ptr - base_ptr) as ReaderOffset`.  The two `debug_assert!`s of the
source are modelled separately by `offset_fromP`. -/
def offset_from (self base : EndianSlice) : Nat :=
  self.pos - base.pos

/-- The cursor advanced past its first `n` remaining bytes: the slice pointer
moves forward by `n` and the length shrinks by `n`.  (Helper used to state
results; not itself a source function.) -/
def advance (r : EndianSlice) (n : Nat) : EndianSlice :=
  ⟨r.pos + n, r.slice.drop n, r.endian⟩

/-- `EndianSlice::read_slice`: take the next `len` bytes and advance past
them, or fail with `UnexpectedEof` leaving the cursor unchanged. -/
def read_slice (r : EndianSlice) (len : Nat) : Except Error (List Nat) × EndianSlice :=
  if r.slice.length < len then (.error .UnexpectedEof, r)
  else (.ok (r.slice.take len), r.advance len)

/-- `Reader::truncate` for `EndianSlice`: shrink the remaining length to
`len` (`self.slice = &self.slice[..len]`), or fail with `UnexpectedEof`. -/
def truncate (r : EndianSlice) (len : Nat) : Except Error Unit × EndianSlice :=
  if r.slice.length < len then (.error .UnexpectedEof, r)
  else (.ok (), ⟨r.pos, r.slice.take len, r.endian⟩)

/-- `Reader::skip` for `EndianSlice`: discard `len` bytes
(`self.slice = &self.slice[len..]`), or fail with `UnexpectedEof`. -/
def skip (r : EndianSlice) (len : Nat) : Except Error Unit × EndianSlice :=
  if r.slice.length < len then (.error .UnexpectedEof, r)
  else (.ok (), r.advance len)

/-- `Reader::split` for `EndianSlice`: a new cursor over the next `len`
bytes, `self` advanced past them; fails with `UnexpectedEof` via
`read_slice`. -/
def split (r : EndianSlice) (len : Nat) : Except Error EndianSlice × EndianSlice :=
  match read_slice r len with
  | (.ok s, r') => (.ok ⟨r.pos, s, r.endian⟩, r')
  | (.error e, r') => (.error e, r')

/-- `Reader::read_u8_array` followed by the endianness byte-swap: the shared
body of the fixed-width numeric reads `read_u16`/`read_u32`/`read_u64`
(src/read/reader.rs), returning the unsigned value. -/
def read_fixed (r : EndianSlice) (n : Nat) : Except Error Nat × EndianSlice :=
  match read_slice r n with
  | (.ok a, r') => (.ok (r.endian.readWord a), r')
  | (.error e, r') => (.error e, r')

/-- `Reader::read_u8`. -/
def read_u8 (r : EndianSlice) : Except Error Nat × EndianSlice := read_fixed r 1

/-- `Reader::read_u16`. -/
def read_u16 (r : EndianSlice) : Except Error Nat × EndianSlice := read_fixed r 2

/-- `Reader::read_u32`. -/
def read_u32 (r : EndianSlice) : Except Error Nat × EndianSlice := read_fixed r 4

/-- `Reader::read_u64`. -/
def read_u64 (r : EndianSlice) : Except Error Nat × EndianSlice := read_fixed r 8

end EndianSlice

/-- Reinterpret an unsigned `w`-byte value as a two's-complement signed
integer ("happens by default when casting" in the source's words). -/
def asSigned (w v : Nat) : Int :=
  if v < 2 ^ (8 * w - 1) then (v : Int) else (v : Int) - 2 ^ (8 * w)

/-- Reinterpret a signed integer as `u64` (`as u64` on an `i64`):
the unique representative modulo `2 ^ 64`. -/
def toU64 (i : Int) : Nat :=
  (i % (2 ^ 64 : Int)).toNat

namespace EndianSlice

/-- `Reader::read_i16`, returned reinterpreted as signed. -/
def read_i16 (r : EndianSlice) : Except Error Int × EndianSlice :=
  match read_fixed r 2 with
  | (.ok v, r') => (.ok (asSigned 2 v), r')
  | (.error e, r') => (.error e, r')

/-- `Reader::read_i32`, returned reinterpreted as signed. -/
def read_i32 (r : EndianSlice) : Except Error Int × EndianSlice :=
  match read_fixed r 4 with
  | (.ok v, r') => (.ok (asSigned 4 v), r')
  | (.error e, r') => (.error e, r')

/-- `Reader::read_i64`, returned reinterpreted as signed. -/
def read_i64 (r : EndianSlice) : Except Error Int × EndianSlice :=
  match read_fixed r 8 with
  | (.ok v, r') => (.ok (asSigned 8 v), r')
  | (.error e, r') => (.error e, r')

/-- `Reader::read_address`: address-sized read dispatching on
`address_size`, zero-extended to `u64`; other sizes fail
`UnsupportedAddressSize`. -/
def read_address (r : EndianSlice) (address_size : Nat) :
    Except Error Nat × EndianSlice :=
  if address_size = 1 then read_fixed r 1
  else if address_size = 2 then read_fixed r 2
  else if address_size = 4 then read_fixed r 4
  else if address_size = 8 then read_fixed r 8
  else (.error (.UnsupportedAddressSize address_size), r)

/-- `Reader::read_initial_length` (src/read/reader.rs): read a 4-byte value;
below `0xfffffff0` it is a 32-bit length, `0xffffffff` announces a following
8-byte 64-bit length, the remaining values are reserved. -/
def read_initial_length (r : EndianSlice) :
    Except Error (Nat × Format) × EndianSlice :=
  match read_u32 r with
  | (.error e, r1) => (.error e, r1)
  | (.ok v, r1) =>
    if v < 0xfffffff0 then (.ok (v, .Dwarf32), r1)
    else if v = 0xffffffff then
      match read_u64 r1 with
      | (.error e, r2) => (.error e, r2)
      | (.ok w, r2) => (.ok (w, .Dwarf64), r2)
    else (.error .UnknownReservedLength, r1)

end EndianSlice

/-! ## LEB128 (variable-length integers)

The `leb128` module of the repository is not among the provided files; the
spec describes it as "unsigned/signed LEB128 (standard continuation-bit
algorithm)" with signed values "sign extended" (spec sections 4.1, 4.4). -/

/-- Modelled from the spec: the unsigned LEB128 continuation-bit loop over
the remaining bytes.  Each byte contributes its low 7 bits at the current
shift; a clear high bit ends the loop.  Returns the decoded value (wrapped
into 64 bits) and the number of bytes consumed; an empty input mid-value is
`UnexpectedEof` from the underlying `read_u8`. -/
def ulebCore : List Nat → Nat → Nat → Except Error (Nat × Nat)
  | [], _, _ => .error .UnexpectedEof
  | b :: rest, shift, acc =>
    let acc2 := (acc + b % 128 * 2 ^ shift) % 2 ^ 64
    if b % 256 < 128 then .ok (acc2, 1)
    else
      match ulebCore rest (shift + 7) acc2 with
      | .ok (v, k) => .ok (v, k + 1)
      | .error e => .error e

/-- Modelled from the spec: the signed LEB128 continuation-bit loop, with
the final byte's bit 6 sign-extending the result. -/
def slebCore : List Nat → Nat → Nat → Except Error (Int × Nat)
  | [], _, _ => .error .UnexpectedEof
  | b :: rest, shift, acc =>
    let acc2 : Nat := (acc + b % 128 * 2 ^ shift) % 2 ^ 64
    if b % 256 < 128 then
      let v : Int := if 64 ≤ b % 128 then (acc2 : Int) - 2 ^ (shift + 7) else (acc2 : Int)
      .ok (v, 1)
    else
      match slebCore rest (shift + 7) acc2 with
      | .ok (v, k) => .ok (v, k + 1)
      | .error e => .error e

namespace EndianSlice

/-- `Reader::read_uleb128`: decode an unsigned LEB128 value, advancing past
the consumed bytes; on `UnexpectedEof` every remaining byte was consumed by
the byte-at-a-time loop. -/
def read_uleb128 (r : EndianSlice) : Except Error Nat × EndianSlice :=
  match ulebCore r.slice 0 0 with
  | .ok (v, k) => (.ok v, r.advance k)
  | .error e => (.error e, r.advance r.slice.length)

/-- `Reader::read_sleb128`: decode a signed LEB128 value. -/
def read_sleb128 (r : EndianSlice) : Except Error Int × EndianSlice :=
  match slebCore r.slice 0 0 with
  | .ok (v, k) => (.ok v, r.advance k)
  | .error e => (.error e, r.advance r.slice.length)

end EndianSlice

/-! ## Encoded-pointer resolution -/

namespace DwEhPe

/-- Modelled from the spec: the payload-format nibble of a `DW_EH_PE_*`
encoding byte, "low nibble (payload format)" (spec section 6). -/
def format (e : Nat) : Nat := e % 16

/-- Modelled from the spec: the application nibble of an encoding byte,
"application nibble (bits 4 to 6)" (spec section 6), as the nibble value
`0x00 | 0x10 | ... | 0x50`; the indirect bit 7 is excluded. -/
def application (e : Nat) : Nat := e % 128 / 16 * 16

/-- Modelled from the spec: "bit 0x80 = indirect" (spec section 6). -/
def is_indirect (e : Nat) : Bool := 128 ≤ e % 256

/-- Modelled from the spec: validity of an encoding byte.  The omit
sentinel `0xFF` is valid; otherwise the application nibble must be one of
`{0x00, 0x10, 0x20, 0x30, 0x40, 0x50}` and the payload-format nibble one of
`{0x00, 0x01, 0x02, 0x03, 0x04, 0x09, 0x0a, 0x0b, 0x0c}` (spec section 6);
"invalid bit patterns fail UnknownPointerEncoding before any read"
(spec section 4.4, step 1). -/
def is_valid_encoding (e : Nat) : Bool :=
  e % 256 == 255 ||
    ((application e == 0x00 || application e == 0x10 || application e == 0x20 ||
      application e == 0x30 || application e == 0x40 || application e == 0x50) &&
     (format e == 0x00 || format e == 0x01 || format e == 0x02 || format e == 0x03 ||
      format e == 0x04 || format e == 0x09 || format e == 0x0a || format e == 0x0b ||
      format e == 0x0c))

end DwEhPe

/-- A decoded pointer (src/read/mod.rs, `enum Pointer`): `Indirect` means
the value is the address of the real pointer; the library never
dereferences it. -/
inductive Pointer where
  | Direct (p : Nat)
  | Indirect (p : Nat)
  deriving DecidableEq, Repr

/-- `Pointer::new`: wrap the resolved address as `Indirect` when the
encoding's indirect bit is set, as `Direct` otherwise. -/
def Pointer.new (encoding address : Nat) : Pointer :=
  if DwEhPe.is_indirect encoding then .Indirect address else .Direct address

/-- The base addresses for one section (src/read/cfi.rs
`SectionBaseAddresses`, as consumed by src/read/mod.rs): optional section
(pc-relative), text and data bases, plus the mutable per-frame function
base.  The Rust field `section` is renamed `sec` because `section` is a
Lean keyword; `func` is a `RefCell<Option<u64>>` whose borrowed content is
embedded directly as the option. -/
structure SectionBaseAddresses where
  sec : Option Nat
  text : Option Nat
  data : Option Nat
  func : Option Nat
  deriving DecidableEq, Repr

/-- The inner `parse_data` of `parse_encoded_pointer` (src/read/mod.rs):
decode the numeric payload per the encoding's format nibble.  Unsigned
variants zero-extend; signed variants sign extend and are reinterpreted
`as u64`.  The source's final `_ => unreachable!()` arm is never executed
because the caller checks `is_valid_encoding` first; it is embedded as an
`UnknownPointerEncoding` error. -/
def parse_data (encoding : Nat) (address_size : Nat) (input : EndianSlice) :
    Except Error Nat × EndianSlice :=
  if DwEhPe.format encoding = 0x00 then input.read_address address_size
  else if DwEhPe.format encoding = 0x01 then input.read_uleb128
  else if DwEhPe.format encoding = 0x02 then input.read_u16
  else if DwEhPe.format encoding = 0x03 then input.read_u32
  else if DwEhPe.format encoding = 0x04 then input.read_u64
  else if DwEhPe.format encoding = 0x09 then
    match input.read_sleb128 with
    | (.ok a, r') => (.ok (toU64 a), r')
    | (.error e, r') => (.error e, r')
  else if DwEhPe.format encoding = 0x0a then
    match input.read_i16 with
    | (.ok a, r') => (.ok (toU64 a), r')
    | (.error e, r') => (.error e, r')
  else if DwEhPe.format encoding = 0x0b then
    match input.read_i32 with
    | (.ok a, r') => (.ok (toU64 a), r')
    | (.error e, r') => (.error e, r')
  else if DwEhPe.format encoding = 0x0c then
    match input.read_i64 with
    | (.ok a, r') => (.ok (toU64 a), r')
    | (.error e, r') => (.error e, r')
  else (.error .UnknownPointerEncoding, input)

/-- `parse_encoded_pointer` (src/read/mod.rs): resolve a `DW_EH_PE_*`
encoded pointer against the base addresses.  Invalid encodings fail
`UnknownPointerEncoding`; the omit sentinel `0xFF` yields `Direct(0)`
without consuming bytes; otherwise the payload is decoded and the
application nibble selects the base, with wrapping 64-bit addition.
`sectionR` is the section-origin cursor, `input` the payload cursor. -/
def parse_encoded_pointer (encoding : Nat) (bases : SectionBaseAddresses)
    (address_size : Nat) (sectionR input : EndianSlice) :
    Except Error Pointer × EndianSlice :=
  if ¬ DwEhPe.is_valid_encoding encoding then (.error .UnknownPointerEncoding, input)
  else if encoding % 256 = 255 then (.ok (.Direct 0), input)
  else
    if DwEhPe.application encoding = 0x00 then
      match parse_data encoding address_size input with
      | (.ok addr, r') => (.ok (Pointer.new encoding addr), r')
      | (.error e, r') => (.error e, r')
    else if DwEhPe.application encoding = 0x10 then
      match bases.sec with
      | some section_base =>
        let offset_from_section := input.offset_from sectionR
        match parse_data encoding address_size input with
        | (.ok offset, r') =>
          (.ok (Pointer.new encoding ((section_base + offset_from_section + offset) % 2 ^ 64)), r')
        | (.error e, r') => (.error e, r')
      | none => (.error .PcRelativePointerButSectionBaseIsUndefined, input)
    else if DwEhPe.application encoding = 0x20 then
      match bases.text with
      | some text =>
        match parse_data encoding address_size input with
        | (.ok offset, r') => (.ok (Pointer.new encoding ((text + offset) % 2 ^ 64)), r')
        | (.error e, r') => (.error e, r')
      | none => (.error .TextRelativePointerButTextBaseIsUndefined, input)
    else if DwEhPe.application encoding = 0x30 then
      match bases.data with
      | some data =>
        match parse_data encoding address_size input with
        | (.ok offset, r') => (.ok (Pointer.new encoding ((data + offset) % 2 ^ 64)), r')
        | (.error e, r') => (.error e, r')
      | none => (.error .DataRelativePointerButDataBaseIsUndefined, input)
    else if DwEhPe.application encoding = 0x40 then
      match bases.func with
      | some func =>
        match parse_data encoding address_size input with
        | (.ok offset, r') => (.ok (Pointer.new encoding ((func + offset) % 2 ^ 64)), r')
        | (.error e, r') => (.error e, r')
      | none => (.error .FuncRelativePointerInBadContext, input)
    else if DwEhPe.application encoding = 0x50 then (.error .UnsupportedPointerEncoding, input)
    else (.error .UnknownPointerEncoding, input)

/-! ## Buffered random-access backend (examples/bufreader.rs) -/

/-- The single-window read-ahead cache of a section
(examples/bufreader.rs, `struct SectionBuffer`).  The underlying file is not
stored in the structure; it is passed to `read_bytes_at` explicitly, as a
byte list.  `buf` holds the window's fixed-capacity storage (its length is
the capacity, 8192 in the source); `buf_offset`/`buf_size` delimit the
valid window bytes. -/
structure SectionBuffer where
  file_offset : Nat
  file_size : Nat
  buf : List Nat
  buf_offset : Nat
  buf_size : Nat
  deriving DecidableEq, Repr

/-- `SectionBuffer::new`: the window storage is zeroed, positioned at the
section start, with no valid bytes.  `cap` is the window capacity (the
source fixes it to 8192). -/
def SectionBuffer.new (file_offset file_size cap : Nat) : SectionBuffer :=
  ⟨file_offset, file_size, List.replicate cap 0, file_offset, 0⟩

/-- `Seek::seek(Start(fo))` followed by `Read::read_exact` of `len` bytes,
over a file embedded as a byte list: succeeds with exactly the bytes at
`[fo, fo + len)` when that many bytes are available, and fails with the
generic I/O error on a short read (a zero-length read_exact succeeds even
past end of file). -/
def fileRead (file : List Nat) (fo len : Nat) : Except Error (List Nat) :=
  if file.length - fo < len then .error .Io
  else .ok ((file.drop fo).take len)

/-- `SectionBuffer::read_bytes_at` (examples/bufreader.rs): serve `len`
bytes at absolute file offset `fo`.  Fast path when the request lies in the
current window; otherwise validate the request against the section range,
then either bypass the cache (large requests) or refill the window at `fo`
and copy the requested prefix out. -/
def SectionBuffer.read_bytes_at (sb : SectionBuffer) (file : List Nat)
    (fo len : Nat) : Except Error (List Nat) × SectionBuffer :=
  -- Fast path: already in the buffer.
  if sb.buf_offset ≤ fo ∧ fo - sb.buf_offset ≤ sb.buf_size ∧
      len ≤ sb.buf_size - (fo - sb.buf_offset) then
    (.ok ((sb.buf.drop (fo - sb.buf_offset)).take len), sb)
  else
    -- Check the requested range is valid.
    if fo < sb.file_offset then (.error .Io, sb)
    else if sb.file_size < fo - sb.file_offset then (.error .Io, sb)
    else if sb.file_size - (fo - sb.file_offset) < len then (.error .Io, sb)
    else
      -- Read directly into large buffers.
      if sb.buf.length ≤ len then
        match fileRead file fo len with
        | .ok bytes => (.ok bytes, sb)
        | .error e => (.error e, sb)
      else
        -- Read as much as we can into the buffer
        -- (buf_size = min sb.buf.length (sb.file_size - (fo - sb.file_offset))).
        match fileRead file fo (min sb.buf.length (sb.file_size - (fo - sb.file_offset))) with
        | .ok bytes =>
          (.ok ((bytes ++ sb.buf.drop (min sb.buf.length (sb.file_size - (fo - sb.file_offset)))).take len),
            { sb with
              buf := bytes ++ sb.buf.drop (min sb.buf.length (sb.file_size - (fo - sb.file_offset))),
              buf_offset := fo,
              buf_size := min sb.buf.length (sb.file_size - (fo - sb.file_offset)) })
        | .error e => (.error e, sb)

/-- Modelled from the spec, as the reference behaviour of claim C3: check
`file_offset ≥ section.file_offset` and
`file_offset + len ≤ section.file_offset + section.file_size`, fail the
generic I/O error on violation, and otherwise read directly from the file. -/
def read_bytes_ref (sec_offset sec_size : Nat) (file : List Nat)
    (fo len : Nat) : Except Error (List Nat) :=
  if sec_offset ≤ fo ∧ fo + len ≤ sec_offset + sec_size then
    .ok ((file.drop fo).take len)
  else .error .Io

/-- The cache-window states reachable by the buffered backend: the window
lies inside the section's file range, its valid size fits the storage, and
its valid bytes are exactly the file's bytes at the window's offset.  It
holds for `SectionBuffer.new` and is preserved by `read_bytes_at`. -/
def window_valid (sb : SectionBuffer) (file : List Nat) : Prop :=
  sb.file_offset ≤ sb.buf_offset ∧
  sb.buf_offset + sb.buf_size ≤ sb.file_offset + sb.file_size ∧
  sb.buf_size ≤ sb.buf.length ∧
  sb.buf.take sb.buf_size = (file.drop sb.buf_offset).take sb.buf_size

instance (sb : SectionBuffer) (file : List Nat) : Decidable (window_valid sb file) := by
  unfold window_valid; infer_instance

/-! ## DebugAddr (src/read/addr.rs) -/

/-- The raw contents of the `.debug_addr` section (src/read/addr.rs,
`struct DebugAddr`).  The Rust field `section` is renamed `sec` because
`section` is a Lean keyword. -/
structure DebugAddr where
  sec : EndianSlice
  deriving DecidableEq, Repr

/-- `DebugAddr::get_address`: on a clone of the section reader, skip to
`base`, skip `index * address_size` more bytes (a wrapping `u64`
multiplication in the source), and read an address-sized integer.  The
`DebugAddr` itself is behind `&self` and is never modified; accordingly the
embedding returns only the result. -/
def DebugAddr.get_address (da : DebugAddr) (address_size base index : Nat) :
    Except Error Nat :=
  match da.sec.skip base with
  | (.error e, _) => .error e
  | (.ok _, r1) =>
    match r1.skip (index * address_size % 2 ^ 64) with
    | (.error e, _) => .error e
    | (.ok _, r2) => (r2.read_address address_size).1

/-! ## Panic model for the slice backend

Rust slice indexing (`&slice[..idx]`, `&slice[idx..]`) aborts when the index
exceeds the slice length.  The definitions below re-embed the slice-backend
operations with that abort made explicit: a `none` result marks a panic, a
`some` result is the normal (value, state) outcome.  They are used to settle
the safety claim about panic-freedom. -/

namespace EndianSlice

/-- `EndianSlice::range_to` (`&self.slice[..idx]`): panics (`none`) when
`idx` exceeds the remaining length. -/
def range_toP (r : EndianSlice) (idx : Nat) : Option EndianSlice :=
  if idx ≤ r.slice.length then some ⟨r.pos, r.slice.take idx, r.endian⟩ else none

/-- `EndianSlice::range_from` (`&self.slice[idx..]`): panics (`none`) when
`idx` exceeds the remaining length. -/
def range_fromP (r : EndianSlice) (idx : Nat) : Option EndianSlice :=
  if idx ≤ r.slice.length then some (r.advance idx) else none

/-- `EndianSlice::split_at` in the panic model: `(self.range_to(..idx),
self.range_from(idx..))`, panicking when `idx` is out of bounds, exactly as
its documentation states. -/
def split_atP (r : EndianSlice) (idx : Nat) : Option (EndianSlice × EndianSlice) :=
  match r.range_toP idx, r.range_fromP idx with
  | some a, some b => some (a, b)
  | _, _ => none

/-- `Reader::truncate` in the panic model: the bounds check precedes the
`&self.slice[..len]` indexing. -/
def truncateP (r : EndianSlice) (len : Nat) : Option (Except Error Unit × EndianSlice) :=
  if r.slice.length < len then some (.error .UnexpectedEof, r)
  else
    match r.range_toP len with
    | some s => some (.ok (), s)
    | none => none

/-- `Reader::skip` in the panic model. -/
def skipP (r : EndianSlice) (len : Nat) : Option (Except Error Unit × EndianSlice) :=
  if r.slice.length < len then some (.error .UnexpectedEof, r)
  else
    match r.range_fromP len with
    | some s => some (.ok (), s)
    | none => none

/-- `EndianSlice::read_slice` in the panic model: the bounds check precedes
both indexings. -/
def read_sliceP (r : EndianSlice) (len : Nat) :
    Option (Except Error (List Nat) × EndianSlice) :=
  if r.slice.length < len then some (.error .UnexpectedEof, r)
  else
    match r.range_toP len, r.range_fromP len with
    | some v, some s => some (.ok v.slice, s)
    | _, _ => none

/-- `Reader::split` in the panic model, via `read_sliceP`. -/
def splitP (r : EndianSlice) (len : Nat) :
    Option (Except Error EndianSlice × EndianSlice) :=
  match read_sliceP r len with
  | some (.ok v, s) => some (.ok ⟨r.pos, v, r.endian⟩, s)
  | some (.error e, s) => some (.error e, s)
  | none => none

/-- `EndianSlice::offset_from` in the panic model: the two `debug_assert!`s
require `self` to be derived from `base`'s range; in a debug build their
violation aborts. -/
def offset_fromP (self base : EndianSlice) : Option Nat :=
  if base.pos ≤ self.pos ∧ self.pos + self.slice.length ≤ base.pos + base.slice.length
  then some (self.pos - base.pos) else none

end EndianSlice

/-! ## Basic lemmas about the slice backend -/

theorem EndianSlice.read_fixed_eq (r : EndianSlice) (n : Nat) :
    r.read_fixed n =
      if r.slice.length < n then (.error .UnexpectedEof, r)
      else (.ok (r.endian.readWord (r.slice.take n)), r.advance n) := by
  rw [EndianSlice.read_fixed, EndianSlice.read_slice]
  split_ifs <;> rfl

theorem EndianSlice.advance_advance (r : EndianSlice) (a b : Nat) :
    (r.advance a).advance b = r.advance (a + b) := by
  simp only [EndianSlice.advance, EndianSlice.mk.injEq, List.drop_drop]
  exact ⟨by omega, trivial, trivial⟩

theorem EndianSlice.length_advance (r : EndianSlice) (a : Nat) :
    (r.advance a).slice.length = r.slice.length - a := by
  simp [EndianSlice.advance]

@[simp] theorem EndianSlice.advance_endian (r : EndianSlice) (a : Nat) :
    (r.advance a).endian = r.endian := rfl

@[simp] theorem EndianSlice.advance_slice (r : EndianSlice) (a : Nat) :
    (r.advance a).slice = r.slice.drop a := rfl

@[simp] theorem EndianSlice.advance_pos (r : EndianSlice) (a : Nat) :
    (r.advance a).pos = r.pos + a := rfl

/-- C1: `read_initial_length` reads a 4-byte value `v` per the reader's
endianness; `v < 0xfffffff0` yields `(v, Dwarf32)`; `v = 0xffffffff` reads
a following 8-byte value `w` and yields `(w, Dwarf64)`; the reserved range
`0xfffffff0 ..= 0xfffffffe` fails `UnknownReservedLength`; fewer than 4
remaining bytes (or fewer than 8 more after the `0xffffffff` sentinel) fail
`UnexpectedEof`. -/
theorem read_initial_length_spec (r : EndianSlice) (v : Nat)
    (hv : v = r.endian.readWord (r.slice.take 4)) :
    (r.slice.length < 4 → r.read_initial_length = (.error .UnexpectedEof, r)) ∧
    (4 ≤ r.slice.length →
      (v < 0xfffffff0 → r.read_initial_length = (.ok (v, .Dwarf32), r.advance 4)) ∧
      (0xfffffff0 ≤ v → v ≤ 0xfffffffe →
        r.read_initial_length = (.error .UnknownReservedLength, r.advance 4)) ∧
      (v = 0xffffffff → r.slice.length < 12 →
        (r.read_initial_length).1 = .error .UnexpectedEof) ∧
      (v = 0xffffffff → 12 ≤ r.slice.length →
        r.read_initial_length =
          (.ok (r.endian.readWord ((r.slice.drop 4).take 8), .Dwarf64), r.advance 12))) := by
  subst hv
  have e32 := EndianSlice.read_fixed_eq r 4
  have e64 := EndianSlice.read_fixed_eq (r.advance 4) 8
  have hlen4 : (r.advance 4).slice.length = r.slice.length - 4 :=
    EndianSlice.length_advance r 4
  constructor
  · intro h4
    simp [EndianSlice.read_initial_length, EndianSlice.read_u32, e32, h4]
  · intro h4
    have hn4 : ¬ r.slice.length < 4 := by omega
    refine ⟨fun hlt => ?_, fun hge hle => ?_, fun hff h12 => ?_, fun hff h12 => ?_⟩
    · simp [EndianSlice.read_initial_length, EndianSlice.read_u32, e32, hn4, hlt]
    · have h1 : ¬ r.endian.readWord (r.slice.take 4) < 0xfffffff0 := by omega
      have h2 : ¬ r.endian.readWord (r.slice.take 4) = 0xffffffff := by omega
      simp [EndianSlice.read_initial_length, EndianSlice.read_u32, e32, hn4, h1, h2]
    · have h1 : ¬ r.endian.readWord (r.slice.take 4) < 0xfffffff0 := by omega
      have h8 : r.slice.length - 4 < 8 := by omega
      simp [EndianSlice.read_initial_length, EndianSlice.read_u32, e32, hn4, h1, hff,
        EndianSlice.read_u64, e64, h8]
    · have h1 : ¬ r.endian.readWord (r.slice.take 4) < 0xfffffff0 := by omega
      have h8 : ¬ r.slice.length - 4 < 8 := by omega
      simp [EndianSlice.read_initial_length, EndianSlice.read_u32, e32, hn4, h1, hff,
        EndianSlice.read_u64, e64, h8, EndianSlice.advance_advance]

/-- Witness for C1 at the spec's literal case: little-endian bytes
`12 34 56 78` decode to `(0x78563412, Dwarf32)`. -/
theorem read_initial_length_spec_witness :
    EndianSlice.read_initial_length ⟨0, [0x12, 0x34, 0x56, 0x78], .little⟩ =
      (.ok (0x78563412, .Dwarf32),
        EndianSlice.advance ⟨0, [0x12, 0x34, 0x56, 0x78], .little⟩ 4) :=
  ((read_initial_length_spec ⟨0, [0x12, 0x34, 0x56, 0x78], .little⟩ 0x78563412
      (by decide)).2 (by decide)).1 (by decide)

/-- C2: for a slice-backend cursor with remaining length `L` and `n ≤ L`,
`split(n)` succeeds with a cursor over exactly the first `n` remaining
bytes; afterwards the cursor's remaining length is `L - n`, and the split-off
bytes concatenated with the remaining bytes are the bytes before the call.
Both cursors keep the endianness. -/
theorem split_conservation (r : EndianSlice) (n : Nat) (h : n ≤ r.slice.length) :
    r.split n = (.ok ⟨r.pos, r.slice.take n, r.endian⟩, r.advance n) ∧
    (r.slice.take n).length = n ∧
    (r.advance n).slice.length = r.slice.length - n ∧
    r.slice.take n ++ (r.advance n).slice = r.slice ∧
    (r.advance n).endian = r.endian := by
  refine ⟨?_, ?_, EndianSlice.length_advance r n, ?_, rfl⟩
  · rw [EndianSlice.split, EndianSlice.read_slice, if_neg (by omega)]
  · simpa using h
  · simp

/-- Witness for C2 on a concrete cursor. -/
theorem split_conservation_witness :
    EndianSlice.split ⟨0, [1, 2, 3], .little⟩ 2 =
      (.ok ⟨0, ([1, 2, 3] : List Nat).take 2, .little⟩,
        EndianSlice.advance ⟨0, [1, 2, 3], .little⟩ 2) ∧
    (([1, 2, 3] : List Nat).take 2).length = 2 ∧
    (EndianSlice.advance ⟨0, [1, 2, 3], .little⟩ 2).slice.length =
      ([1, 2, 3] : List Nat).length - 2 ∧
    ([1, 2, 3] : List Nat).take 2 ++
      (EndianSlice.advance ⟨0, [1, 2, 3], .little⟩ 2).slice = [1, 2, 3] ∧
    (EndianSlice.advance ⟨0, [1, 2, 3], .little⟩ 2).endian = .little :=
  split_conservation ⟨0, [1, 2, 3], .little⟩ 2 (by decide)

/-- C5: on the slice backend, `truncate(n)`, `skip(n)` and `split(n)` fail
with `UnexpectedEof` exactly when `n` exceeds the remaining length, and on
that failure the cursor is returned unchanged (same remaining bytes, same
endianness, same position); when `n` is within the remaining length all
three succeed. -/
theorem slice_ops_eof (r : EndianSlice) (n : Nat) :
    (r.slice.length < n →
      r.truncate n = (.error .UnexpectedEof, r) ∧
      r.skip n = (.error .UnexpectedEof, r) ∧
      r.split n = (.error .UnexpectedEof, r)) ∧
    (n ≤ r.slice.length →
      r.truncate n = (.ok (), ⟨r.pos, r.slice.take n, r.endian⟩) ∧
      r.skip n = (.ok (), r.advance n) ∧
      r.split n = (.ok ⟨r.pos, r.slice.take n, r.endian⟩, r.advance n)) := by
  constructor
  · intro h
    refine ⟨?_, ?_, ?_⟩
    · rw [EndianSlice.truncate, if_pos h]
    · rw [EndianSlice.skip, if_pos h]
    · rw [EndianSlice.split, EndianSlice.read_slice, if_pos h]
  · intro h
    refine ⟨?_, ?_, ?_⟩
    · rw [EndianSlice.truncate, if_neg (by omega)]
    · rw [EndianSlice.skip, if_neg (by omega)]
    · rw [EndianSlice.split, EndianSlice.read_slice, if_neg (by omega)]

/-- Witness for C5: a failing `truncate` on a short cursor leaves it
unchanged, and an in-bounds `skip` succeeds. -/
theorem slice_ops_eof_witness :
    EndianSlice.truncate ⟨0, [7], .little⟩ 2 =
      (.error .UnexpectedEof, ⟨0, [7], .little⟩) ∧
    EndianSlice.skip ⟨0, [7], .little⟩ 1 =
      (.ok (), EndianSlice.advance ⟨0, [7], .little⟩ 1) :=
  ⟨((slice_ops_eof ⟨0, [7], .little⟩ 2).1 (by decide)).1,
    ((slice_ops_eof ⟨0, [7], .little⟩ 1).2 (by decide)).2.1⟩

/-! ## Lemmas about encoding nibbles and the resolver -/

theorem DwEhPe.application_of_omit (e : Nat) (h : e % 256 = 255) :
    DwEhPe.application e = 112 := by
  unfold DwEhPe.application
  omega

theorem DwEhPe.valid_cases (e : Nat) (hv : DwEhPe.is_valid_encoding e = true)
    (h255 : ¬ e % 256 = 255) :
    (DwEhPe.application e = 0x00 ∨ DwEhPe.application e = 0x10 ∨
     DwEhPe.application e = 0x20 ∨ DwEhPe.application e = 0x30 ∨
     DwEhPe.application e = 0x40 ∨ DwEhPe.application e = 0x50) ∧
    (DwEhPe.format e = 0x00 ∨ DwEhPe.format e = 0x01 ∨ DwEhPe.format e = 0x02 ∨
     DwEhPe.format e = 0x03 ∨ DwEhPe.format e = 0x04 ∨ DwEhPe.format e = 0x09 ∨
     DwEhPe.format e = 0x0a ∨ DwEhPe.format e = 0x0b ∨ DwEhPe.format e = 0x0c) := by
  unfold DwEhPe.is_valid_encoding at hv
  simp only [Bool.or_eq_true, Bool.and_eq_true, beq_iff_eq] at hv
  rcases hv with h | ⟨ha, hf⟩
  · exact absurd h h255
  · exact ⟨by tauto, by tauto⟩

theorem Pointer.new_direct (e addr v : Nat) (h : Pointer.new e addr = .Direct v) :
    DwEhPe.is_indirect e = false ∧ addr = v := by
  by_cases hi : DwEhPe.is_indirect e
  · rw [Pointer.new, if_pos hi] at h
    exact absurd h (by simp)
  · rw [Pointer.new, if_neg hi] at h
    refine ⟨by simpa using hi, by injection h⟩

theorem Pointer.new_of_indirect (e addr : Nat) (h : DwEhPe.is_indirect e = true) :
    Pointer.new e addr = .Indirect addr := by
  rw [Pointer.new, if_pos h]

/-- C8: a valid text-relative, data-relative or function-relative encoding
whose required base is unset fails with, respectively,
`TextRelativePointerButTextBaseIsUndefined`,
`DataRelativePointerButDataBaseIsUndefined` or
`FuncRelativePointerInBadContext`, and the payload cursor is returned
unchanged: the base is inspected before any payload byte is read. -/
theorem base_missing_errors (e : Nat) (bases : SectionBaseAddresses)
    (address_size : Nat) (sectionR input : EndianSlice)
    (hv : DwEhPe.is_valid_encoding e = true) :
    (DwEhPe.application e = 0x20 → bases.text = none →
      parse_encoded_pointer e bases address_size sectionR input =
        (.error .TextRelativePointerButTextBaseIsUndefined, input)) ∧
    (DwEhPe.application e = 0x30 → bases.data = none →
      parse_encoded_pointer e bases address_size sectionR input =
        (.error .DataRelativePointerButDataBaseIsUndefined, input)) ∧
    (DwEhPe.application e = 0x40 → bases.func = none →
      parse_encoded_pointer e bases address_size sectionR input =
        (.error .FuncRelativePointerInBadContext, input)) := by
  refine ⟨fun ha hb => ?_, fun ha hb => ?_, fun ha hb => ?_⟩ <;>
  · have h255 : ¬ e % 256 = 255 := fun h => by
      have := DwEhPe.application_of_omit e h
      omega
    simp [parse_encoded_pointer, hv, h255, ha, hb]

/-- Witness for C8 at the concrete encoding `0x20` (textrel, absptr) with
no text base. -/
theorem base_missing_errors_witness :
    parse_encoded_pointer 0x20 ⟨none, none, none, none⟩ 4 ⟨0, [], .little⟩
        ⟨0, [0, 0, 0, 0], .little⟩ =
      (.error .TextRelativePointerButTextBaseIsUndefined,
        ⟨0, [0, 0, 0, 0], .little⟩) :=
  (base_missing_errors 0x20 ⟨none, none, none, none⟩ 4 ⟨0, [], .little⟩
      ⟨0, [0, 0, 0, 0], .little⟩ (by decide)).1 (by decide) rfl

/-- Counterexample to C6 as stated: the encoding byte `0x55` has the
aligned application nibble (`0x50`) and the payload-format nibble `0x5`,
yet `parse_encoded_pointer` fails with `UnknownPointerEncoding`, not
`UnsupportedPointerEncoding`: `0x5` is not a valid payload-format nibble,
and the validity check runs before the application dispatch. -/
theorem aligned_invalid_format_cx :
    parse_encoded_pointer 0x55 ⟨none, none, none, none⟩ 4 ⟨0, [], .little⟩
        ⟨0, [0, 0, 0, 0], .little⟩ =
      (.error .UnknownPointerEncoding, ⟨0, [0, 0, 0, 0], .little⟩) ∧
    Error.UnknownPointerEncoding ≠ Error.UnsupportedPointerEncoding := by
  exact ⟨rfl, by decide⟩

/-- C6 as amended: for every encoding whose application nibble is aligned
(`0x50`) and whose payload-format nibble is one of the nine valid formats,
`parse_encoded_pointer` fails with `UnsupportedPointerEncoding`, for every
choice of bases, address size and input, consuming nothing. -/
theorem aligned_unsupported (e : Nat) (bases : SectionBaseAddresses)
    (address_size : Nat) (sectionR input : EndianSlice)
    (ha : DwEhPe.application e = 0x50)
    (hf : DwEhPe.format e = 0x00 ∨ DwEhPe.format e = 0x01 ∨ DwEhPe.format e = 0x02 ∨
      DwEhPe.format e = 0x03 ∨ DwEhPe.format e = 0x04 ∨ DwEhPe.format e = 0x09 ∨
      DwEhPe.format e = 0x0a ∨ DwEhPe.format e = 0x0b ∨ DwEhPe.format e = 0x0c) :
    parse_encoded_pointer e bases address_size sectionR input =
      (.error .UnsupportedPointerEncoding, input) := by
  have hv : DwEhPe.is_valid_encoding e = true := by
    unfold DwEhPe.is_valid_encoding
    simp only [Bool.or_eq_true, Bool.and_eq_true, beq_iff_eq, ha]
    rcases hf with h | h | h | h | h | h | h | h | h <;> simp [h]
  have h255 : ¬ e % 256 = 255 := fun h => by
    have := DwEhPe.application_of_omit e h
    omega
  simp [parse_encoded_pointer, hv, h255, ha]

/-- Witness for the amended C6 at the concrete encoding `0x50`. -/
theorem aligned_unsupported_witness :
    parse_encoded_pointer 0x50 ⟨some 1, some 2, some 3, some 4⟩ 4 ⟨0, [], .little⟩
        ⟨0, [9], .little⟩ =
      (.error .UnsupportedPointerEncoding, ⟨0, [9], .little⟩) :=
  aligned_unsupported 0x50 ⟨some 1, some 2, some 3, some 4⟩ 4 ⟨0, [], .little⟩
    ⟨0, [9], .little⟩ (by decide) (Or.inl (by decide))

/-- C4: for a valid pc-relative encoding with `bases.section = some b` and
the payload cursor positioned `d` bytes after the section-origin cursor,
a successful payload decode `v` resolves to
`b.wrapping_add(d).wrapping_add(v)` (with `d` measured at the payload's
start, before the payload is consumed), wrapped by `Pointer.new` (`Direct`
unless the indirect bit is set); with `bases.section = none` it fails with
`PcRelativePointerButSectionBaseIsUndefined`, consuming nothing. -/
theorem pcrel_resolution (e : Nat) (bases : SectionBaseAddresses)
    (address_size : Nat) (sectionR input : EndianSlice) (d : Nat)
    (hv : DwEhPe.is_valid_encoding e = true)
    (ha : DwEhPe.application e = 0x10)
    (hd : input.pos = sectionR.pos + d) :
    (∀ b, bases.sec = some b →
      ∀ v input', parse_data e address_size input = (.ok v, input') →
        parse_encoded_pointer e bases address_size sectionR input =
          (.ok (Pointer.new e ((b + d + v) % 2 ^ 64)), input')) ∧
    (bases.sec = none →
      parse_encoded_pointer e bases address_size sectionR input =
        (.error .PcRelativePointerButSectionBaseIsUndefined, input)) := by
  have h255 : ¬ e % 256 = 255 := fun h => by
    have := DwEhPe.application_of_omit e h
    omega
  have hoff : input.offset_from sectionR = d := by
    unfold EndianSlice.offset_from
    omega
  constructor
  · intro b hb v input' hp
    simp [parse_encoded_pointer, hv, h255, ha, hb, hp, hoff]
  · intro hb
    simp [parse_encoded_pointer, hv, h255, ha, hb]

/-- Witness for C4 at the spec's literal case: encoding `0x11`
(pcrel, uleb128), section base `0x100`, payload cursor `0x10` bytes into
the section, payload ULEB128 `0x01`, resolving to `Direct(0x111)`. -/
theorem pcrel_resolution_witness :
    parse_encoded_pointer 0x11 ⟨some 0x100, none, none, none⟩ 4
        ⟨0, List.replicate 0x11 0, .little⟩ ⟨0x10, [0x01], .little⟩ =
      (.ok (.Direct 0x111), ⟨0x11, [], .little⟩) := by
  have h := (pcrel_resolution 0x11 ⟨some 0x100, none, none, none⟩ 4
      ⟨0, List.replicate 0x11 0, .little⟩ ⟨0x10, [0x01], .little⟩ 0x10
      (by decide) (by decide) (by decide)).1 0x100 rfl 1 ⟨0x11, [], .little⟩ rfl
  simpa using h

theorem parse_data_congr (e1 e2 asz : Nat) (i : EndianSlice)
    (h : DwEhPe.format e1 = DwEhPe.format e2) :
    parse_data e1 asz i = parse_data e2 asz i := by
  unfold parse_data
  rw [h]

theorem DwEhPe.add128_transfer :
    ∀ e : Nat, e < 128 → DwEhPe.is_valid_encoding e = true →
      DwEhPe.is_valid_encoding (e + 128) = true ∧
      DwEhPe.application (e + 128) = DwEhPe.application e ∧
      DwEhPe.format (e + 128) = DwEhPe.format e ∧
      DwEhPe.is_indirect (e + 128) = true := by decide

/-- Inversion of a successful, non-omit resolution: the result is
`Pointer.new e addr` for some address `addr` depending only on the
application nibble, the bases, the cursors and the decoded payload; any
other valid non-omit encoding with the same application and format nibbles
resolves to `Pointer.new` of the same address with the same final cursor. -/
theorem parse_success_inv (e : Nat) (bases : SectionBaseAddresses) (asz : Nat)
    (sectionR input : EndianSlice) (p : Pointer) (input' : EndianSlice)
    (h255 : ¬ e % 256 = 255)
    (hs : parse_encoded_pointer e bases asz sectionR input = (.ok p, input')) :
    ∃ addr st, p = Pointer.new e addr ∧ input' = st ∧
      ∀ e2, DwEhPe.is_valid_encoding e2 = true → ¬ e2 % 256 = 255 →
        DwEhPe.application e2 = DwEhPe.application e →
        DwEhPe.format e2 = DwEhPe.format e →
        parse_encoded_pointer e2 bases asz sectionR input =
          (.ok (Pointer.new e2 addr), st) := by
  have hv : DwEhPe.is_valid_encoding e = true := by
    by_contra h
    rw [Bool.not_eq_true] at h
    simp [parse_encoded_pointer, h] at hs
  obtain ⟨happs, _⟩ := DwEhPe.valid_cases e hv h255
  rcases happs with ha | ha | ha | ha | ha | ha
  · -- absptr application
    rcases hpd : parse_data e asz input with ⟨res, st0⟩
    cases res with
    | error err => simp [parse_encoded_pointer, hv, h255, ha, hpd] at hs
    | ok addr =>
      simp only [parse_encoded_pointer, hv, h255, ha] at hs
      simp [hpd, Prod.mk.injEq] at hs
      obtain ⟨hp, hst⟩ := hs
      refine ⟨addr, st0, hp.symm, hst.symm, fun e2 hv2 h2552 ha2 hf2 => ?_⟩
      have hpd2 : parse_data e2 asz input = (.ok addr, st0) :=
        (parse_data_congr e2 e asz input hf2).trans hpd
      simp [parse_encoded_pointer, hv2, h2552, ha2, ha, hpd2]
  · -- pcrel application
    rcases hb : bases.sec with _ | sb
    · simp [parse_encoded_pointer, hv, h255, ha, hb] at hs
    · rcases hpd : parse_data e asz input with ⟨res, st0⟩
      cases res with
      | error err => simp [parse_encoded_pointer, hv, h255, ha, hb, hpd] at hs
      | ok off =>
        simp only [parse_encoded_pointer, hv, h255, ha] at hs
        simp [hb, hpd, Prod.mk.injEq] at hs
        obtain ⟨hp, hst⟩ := hs
        refine ⟨(sb + input.offset_from sectionR + off) % 2 ^ 64, st0,
          hp.symm, hst.symm, fun e2 hv2 h2552 ha2 hf2 => ?_⟩
        have hpd2 : parse_data e2 asz input = (.ok off, st0) :=
          (parse_data_congr e2 e asz input hf2).trans hpd
        simp [parse_encoded_pointer, hv2, h2552, ha2, ha, hb, hpd2]
  · -- textrel application
    rcases hb : bases.text with _ | tb
    · simp [parse_encoded_pointer, hv, h255, ha, hb] at hs
    · rcases hpd : parse_data e asz input with ⟨res, st0⟩
      cases res with
      | error err => simp [parse_encoded_pointer, hv, h255, ha, hb, hpd] at hs
      | ok off =>
        simp only [parse_encoded_pointer, hv, h255, ha] at hs
        simp [hb, hpd, Prod.mk.injEq] at hs
        obtain ⟨hp, hst⟩ := hs
        refine ⟨(tb + off) % 2 ^ 64, st0, hp.symm, hst.symm,
          fun e2 hv2 h2552 ha2 hf2 => ?_⟩
        have hpd2 : parse_data e2 asz input = (.ok off, st0) :=
          (parse_data_congr e2 e asz input hf2).trans hpd
        simp [parse_encoded_pointer, hv2, h2552, ha2, ha, hb, hpd2]
  · -- datarel application
    rcases hb : bases.data with _ | db
    · simp [parse_encoded_pointer, hv, h255, ha, hb] at hs
    · rcases hpd : parse_data e asz input with ⟨res, st0⟩
      cases res with
      | error err => simp [parse_encoded_pointer, hv, h255, ha, hb, hpd] at hs
      | ok off =>
        simp only [parse_encoded_pointer, hv, h255, ha] at hs
        simp [hb, hpd, Prod.mk.injEq] at hs
        obtain ⟨hp, hst⟩ := hs
        refine ⟨(db + off) % 2 ^ 64, st0, hp.symm, hst.symm,
          fun e2 hv2 h2552 ha2 hf2 => ?_⟩
        have hpd2 : parse_data e2 asz input = (.ok off, st0) :=
          (parse_data_congr e2 e asz input hf2).trans hpd
        simp [parse_encoded_pointer, hv2, h2552, ha2, ha, hb, hpd2]
  · -- funcrel application
    rcases hb : bases.func with _ | fb
    · simp [parse_encoded_pointer, hv, h255, ha, hb] at hs
    · rcases hpd : parse_data e asz input with ⟨res, st0⟩
      cases res with
      | error err => simp [parse_encoded_pointer, hv, h255, ha, hb, hpd] at hs
      | ok off =>
        simp only [parse_encoded_pointer, hv, h255, ha] at hs
        simp [hb, hpd, Prod.mk.injEq] at hs
        obtain ⟨hp, hst⟩ := hs
        refine ⟨(fb + off) % 2 ^ 64, st0, hp.symm, hst.symm,
          fun e2 hv2 h2552 ha2 hf2 => ?_⟩
        have hpd2 : parse_data e2 asz input = (.ok off, st0) :=
          (parse_data_congr e2 e asz input hf2).trans hpd
        simp [parse_encoded_pointer, hv2, h2552, ha2, ha, hb, hpd2]
  · -- aligned application: no success possible
    simp [parse_encoded_pointer, hv, h255, ha] at hs

/-- C7: if a non-omit encoding byte `e` resolves successfully to
`Direct(v)`, then `e` has the indirect bit clear, and the encoding with bit
`0x80` set (`e + 128`) resolves on the same input and bases to
`Indirect(v)`: the same numeric value and the same final cursor (hence the
same number of consumed bytes). -/
theorem indirect_bit (e : Nat) (bases : SectionBaseAddresses) (address_size : Nat)
    (sectionR input : EndianSlice) (v : Nat) (input' : EndianSlice)
    (he : e < 256) (homit : e ≠ 255)
    (hsucc : parse_encoded_pointer e bases address_size sectionR input =
      (.ok (.Direct v), input')) :
    e < 128 ∧
    parse_encoded_pointer (e + 128) bases address_size sectionR input =
      (.ok (.Indirect v), input') := by
  have h255 : ¬ e % 256 = 255 := by omega
  have hvv : DwEhPe.is_valid_encoding e = true := by
    by_contra h
    rw [Bool.not_eq_true] at h
    simp [parse_encoded_pointer, h] at hsucc
  obtain ⟨addr, st, hp, hst, htrans⟩ :=
    parse_success_inv e bases address_size sectionR input _ input' h255 hsucc
  obtain ⟨hind, haddr⟩ := Pointer.new_direct e addr v hp.symm
  have hlt : e < 128 := by
    unfold DwEhPe.is_indirect at hind
    simp only [decide_eq_false_iff_not] at hind
    omega
  obtain ⟨hv', happ', hfmt', hind'⟩ := DwEhPe.add128_transfer e hlt hvv
  have h127 : e ≠ 127 := fun h => by
    subst h
    exact absurd hvv (by decide)
  have h255' : ¬ (e + 128) % 256 = 255 := by omega
  refine ⟨hlt, ?_⟩
  rw [htrans (e + 128) hv' h255' happ' hfmt', Pointer.new_of_indirect _ _ hind',
    haddr, ← hst]

/-- Witness for C7: encoding `0x03` (absptr, udata4) resolves the payload
`0D F0 0D F0` to `Direct(0xf00df00d)`; with the indirect bit set
(`0x83`) the same input resolves to `Indirect(0xf00df00d)`. -/
theorem indirect_bit_witness :
    (0x03 : Nat) < 128 ∧
    parse_encoded_pointer (0x03 + 128) ⟨none, none, none, none⟩ 4 ⟨0, [], .little⟩
        ⟨0, [0x0d, 0xf0, 0x0d, 0xf0], .little⟩ =
      (.ok (.Indirect 0xf00df00d), ⟨4, [], .little⟩) :=
  indirect_bit 0x03 ⟨none, none, none, none⟩ 4 ⟨0, [], .little⟩
    ⟨0, [0x0d, 0xf0, 0x0d, 0xf0], .little⟩ 0xf00df00d ⟨4, [], .little⟩
    (by decide) (by decide) rfl

theorem EndianSlice.read_address_eq (r : EndianSlice) (s : Nat)
    (hs : s = 1 ∨ s = 2 ∨ s = 4 ∨ s = 8) :
    r.read_address s =
      if r.slice.length < s then (.error .UnexpectedEof, r)
      else (.ok (r.endian.readWord (r.slice.take s)), r.advance s) := by
  rcases hs with h | h | h | h <;> subst h <;>
    simp [EndianSlice.read_address, EndianSlice.read_fixed_eq]

/-- C10: for `address_size` in `{1, 2, 4, 8}` and a non-overflowing
`index * address_size`, `get_address(address_size, base, index)` returns the
address-sized integer decoded per the section's endianness at section
offset `base + index * address_size` whenever that byte range lies inside
the section, and fails `UnexpectedEof` whenever the range extends past the
section.  The `DebugAddr` is read through a clone (`&self`), so the
embedding's section reader is unchanged by construction. -/
theorem get_address_spec (da : DebugAddr) (address_size base index : Nat)
    (hs : address_size = 1 ∨ address_size = 2 ∨ address_size = 4 ∨ address_size = 8)
    (hof : index * address_size < 2 ^ 64) :
    (base + index * address_size + address_size ≤ da.sec.slice.length →
      da.get_address address_size base index =
        .ok (da.sec.endian.readWord
          ((da.sec.slice.drop (base + index * address_size)).take address_size))) ∧
    (da.sec.slice.length < base + index * address_size + address_size →
      da.get_address address_size base index = .error .UnexpectedEof) := by
  have hmod : index * address_size % 2 ^ 64 = index * address_size :=
    Nat.mod_eq_of_lt hof
  constructor
  · intro hle
    have e1 : da.sec.skip base = (.ok (), da.sec.advance base) := by
      rw [EndianSlice.skip, if_neg (by omega)]
    have e2 : (da.sec.advance base).skip (index * address_size % 2 ^ 64) =
        (.ok (), da.sec.advance (base + index * address_size)) := by
      rw [EndianSlice.skip, EndianSlice.length_advance, hmod,
        if_neg (by omega : ¬ da.sec.slice.length - base < index * address_size),
        EndianSlice.advance_advance]
    have e3 : (da.sec.advance (base + index * address_size)).read_address address_size =
        (.ok (da.sec.endian.readWord
            ((da.sec.slice.drop (base + index * address_size)).take address_size)),
          (da.sec.advance (base + index * address_size)).advance address_size) := by
      rw [EndianSlice.read_address_eq _ _ hs, EndianSlice.length_advance,
        if_neg (by omega)]
      rfl
    simp only [DebugAddr.get_address, e1, e2, e3]
  · intro hgt
    by_cases c1 : da.sec.slice.length < base
    · have e1 : da.sec.skip base = (.error .UnexpectedEof, da.sec) := by
        rw [EndianSlice.skip, if_pos c1]
      simp only [DebugAddr.get_address, e1]
    · have e1 : da.sec.skip base = (.ok (), da.sec.advance base) := by
        rw [EndianSlice.skip, if_neg c1]
      by_cases c2 : da.sec.slice.length - base < index * address_size
      · have e2 : (da.sec.advance base).skip (index * address_size % 2 ^ 64) =
            (.error .UnexpectedEof, da.sec.advance base) := by
          rw [EndianSlice.skip, EndianSlice.length_advance, hmod, if_pos c2]
        simp only [DebugAddr.get_address, e1, e2]
      · have e2 : (da.sec.advance base).skip (index * address_size % 2 ^ 64) =
            (.ok (), da.sec.advance (base + index * address_size)) := by
          rw [EndianSlice.skip, EndianSlice.length_advance, hmod, if_neg c2,
            EndianSlice.advance_advance]
        have e3 : (da.sec.advance (base + index * address_size)).read_address
              address_size =
            (.error .UnexpectedEof, da.sec.advance (base + index * address_size)) := by
          rw [EndianSlice.read_address_eq _ _ hs, EndianSlice.length_advance,
            if_pos (by omega)]
        simp only [DebugAddr.get_address, e1, e2, e3]

/-- Witness for C10: a 2-byte address at base 1, index 0 of a little-endian
section. -/
theorem get_address_spec_witness :
    DebugAddr.get_address ⟨⟨0, [9, 0x34, 0x12], .little⟩⟩ 2 1 0 = .ok 0x1234 := by
  rw [(get_address_spec ⟨⟨0, [9, 0x34, 0x12], .little⟩⟩ 2 1 0
    (Or.inr (Or.inl rfl)) (by decide)).1 (by decide)]
  rfl

/-- Counterexample to C9 as stated: `EndianSlice::split_at` is a public
operation of the slice backend, it involves no `offset_from` debug
assertion, and on an empty cursor with index 1 it aborts (a release-mode
out-of-bounds panic, `none` in the panic model) instead of returning an
error value — exactly as its documentation and the source's
`should_panic` test state. -/
theorem split_at_panic_cx :
    EndianSlice.split_atP ⟨0, [], .little⟩ 1 = none := by decide

/-- C9 as amended: every `Reader`-contract operation of the slice backend
returns its failures as error values and never reaches the out-of-bounds
abort of slice indexing (the panic model agrees with the total embedding on
every input); the panics reachable through the public interface are
`offset_from`'s debug assertions together with the documented out-of-bounds
panics of the explicit range methods (`split_at` aborts exactly when the
index exceeds the remaining length, and `offset_from`'s debug assertions
hold exactly when `self` lies inside `base`'s range). -/
theorem slice_ops_no_panic (r : EndianSlice) (n : Nat) (base : EndianSlice) :
    EndianSlice.truncateP r n = some (r.truncate n) ∧
    EndianSlice.skipP r n = some (r.skip n) ∧
    EndianSlice.read_sliceP r n = some (r.read_slice n) ∧
    EndianSlice.splitP r n = some (r.split n) ∧
    ((EndianSlice.split_atP r n).isSome ↔ n ≤ r.slice.length) ∧
    ((EndianSlice.offset_fromP r base).isSome ↔
      base.pos ≤ r.pos ∧ r.pos + r.slice.length ≤ base.pos + base.slice.length) := by
  by_cases h : r.slice.length < n
  · refine ⟨?_, ?_, ?_, ?_, ?_, ?_⟩
    · rw [EndianSlice.truncateP, if_pos h, EndianSlice.truncate, if_pos h]
    · rw [EndianSlice.skipP, if_pos h, EndianSlice.skip, if_pos h]
    · rw [EndianSlice.read_sliceP, if_pos h, EndianSlice.read_slice, if_pos h]
    · rw [EndianSlice.splitP, EndianSlice.read_sliceP, if_pos h,
        EndianSlice.split, EndianSlice.read_slice, if_pos h]
    · simp [EndianSlice.split_atP, EndianSlice.range_toP, EndianSlice.range_fromP,
        Nat.not_le.mpr h]
    · simp [EndianSlice.offset_fromP]
  · refine ⟨?_, ?_, ?_, ?_, ?_, ?_⟩
    · rw [EndianSlice.truncateP, if_neg h, EndianSlice.range_toP,
        if_pos (by omega), EndianSlice.truncate, if_neg h]
    · rw [EndianSlice.skipP, if_neg h, EndianSlice.range_fromP,
        if_pos (by omega), EndianSlice.skip, if_neg h]
    · rw [EndianSlice.read_sliceP, if_neg h, EndianSlice.range_toP,
        if_pos (by omega), EndianSlice.range_fromP, if_pos (by omega),
        EndianSlice.read_slice, if_neg h]
    · rw [EndianSlice.splitP, EndianSlice.read_sliceP, if_neg h,
        EndianSlice.range_toP, if_pos (by omega), EndianSlice.range_fromP,
        if_pos (by omega), EndianSlice.split, EndianSlice.read_slice, if_neg h]
    · simp [EndianSlice.split_atP, EndianSlice.range_toP, EndianSlice.range_fromP,
        Nat.not_lt.mp h]
    · simp [EndianSlice.offset_fromP]

theorem take_drop_window (l m : List Nat) (k a b : Nat)
    (h : l.take k = m.take k) (hab : a + b ≤ k) :
    (l.drop a).take b = (m.drop a).take b := by
  have aux : ∀ x : List Nat, ((x.take k).drop a).take b = (x.drop a).take b := by
    intro x
    rw [List.drop_take, List.take_take]
    congr 1
    omega
  rw [← aux l, h, aux m]

/-- C3: for a file that contains the whole declared section and any
reachable cache-window state (one inside the section whose valid bytes
mirror the file, which holds for the fresh window and is preserved by every
request), `read_bytes_at` returns exactly what the bounds-checking
reference `read_bytes_ref` returns — the generic I/O error outside
`[section.file_offset, section.file_offset + section.file_size]`, and the
file's bytes at `[file_offset, file_offset + len)` inside — on every one of
the fast, bypass and refill paths; the window stays valid and the section
range and window capacity are unchanged, so the result is independent of
the capacity and of the prior window state. -/
theorem read_bytes_at_refines (sb : SectionBuffer) (file : List Nat) (fo len : Nat)
    (hw : window_valid sb file)
    (hfile : sb.file_offset + sb.file_size ≤ file.length) :
    (sb.read_bytes_at file fo len).1 =
      read_bytes_ref sb.file_offset sb.file_size file fo len ∧
    window_valid (sb.read_bytes_at file fo len).2 file ∧
    (sb.read_bytes_at file fo len).2.file_offset = sb.file_offset ∧
    (sb.read_bytes_at file fo len).2.file_size = sb.file_size ∧
    (sb.read_bytes_at file fo len).2.buf.length = sb.buf.length := by
  obtain ⟨hw1, hw2, hw3, hw4⟩ := hw
  simp only [window_valid]
  by_cases hfast : sb.buf_offset ≤ fo ∧ fo - sb.buf_offset ≤ sb.buf_size ∧
      len ≤ sb.buf_size - (fo - sb.buf_offset)
  · -- fast path
    obtain ⟨f1, f2, f3⟩ := hfast
    have hrefc : sb.file_offset ≤ fo ∧ fo + len ≤ sb.file_offset + sb.file_size := by
      omega
    rw [SectionBuffer.read_bytes_at, if_pos ⟨f1, f2, f3⟩, read_bytes_ref, if_pos hrefc]
    refine ⟨?_, ⟨hw1, hw2, hw3, hw4⟩, rfl, rfl, rfl⟩
    show Except.ok ((sb.buf.drop (fo - sb.buf_offset)).take len) = _
    have hwin := take_drop_window sb.buf (file.drop sb.buf_offset) sb.buf_size
      (fo - sb.buf_offset) len hw4 (by omega)
    rw [hwin, List.drop_drop]
    have hix1 : fo - sb.buf_offset + sb.buf_offset = fo := by omega
    have hix2 : sb.buf_offset + (fo - sb.buf_offset) = fo := by omega
    first
    | rw [hix1]
    | rw [hix2]
  · by_cases c1 : fo < sb.file_offset
    · have hrefc : ¬ (sb.file_offset ≤ fo ∧ fo + len ≤ sb.file_offset + sb.file_size) := by
        omega
      rw [SectionBuffer.read_bytes_at, if_neg hfast, if_pos c1, read_bytes_ref,
        if_neg hrefc]
      exact ⟨rfl, ⟨hw1, hw2, hw3, hw4⟩, rfl, rfl, rfl⟩
    · by_cases c2 : sb.file_size < fo - sb.file_offset
      · have hrefc : ¬ (sb.file_offset ≤ fo ∧ fo + len ≤ sb.file_offset + sb.file_size) := by
          omega
        rw [SectionBuffer.read_bytes_at, if_neg hfast, if_neg c1, if_pos c2,
          read_bytes_ref, if_neg hrefc]
        exact ⟨rfl, ⟨hw1, hw2, hw3, hw4⟩, rfl, rfl, rfl⟩
      · by_cases c3 : sb.file_size - (fo - sb.file_offset) < len
        · have hrefc : ¬ (sb.file_offset ≤ fo ∧ fo + len ≤ sb.file_offset + sb.file_size) := by
            omega
          rw [SectionBuffer.read_bytes_at, if_neg hfast, if_neg c1, if_neg c2, if_pos c3,
            read_bytes_ref, if_neg hrefc]
          exact ⟨rfl, ⟨hw1, hw2, hw3, hw4⟩, rfl, rfl, rfl⟩
        · have hrefc : sb.file_offset ≤ fo ∧ fo + len ≤ sb.file_offset + sb.file_size := by
            omega
          by_cases cbig : sb.buf.length ≤ len
          · -- bypass path
            have hread : fileRead file fo len = .ok ((file.drop fo).take len) := by
              rw [fileRead, if_neg (by omega)]
            rw [SectionBuffer.read_bytes_at, if_neg hfast, if_neg c1, if_neg c2,
              if_neg c3, if_pos cbig, hread, read_bytes_ref, if_pos hrefc]
            exact ⟨rfl, ⟨hw1, hw2, hw3, hw4⟩, rfl, rfl, rfl⟩
          · -- refill path
            have hbs : min sb.buf.length (sb.file_size - (fo - sb.file_offset)) ≤
                sb.file_size - (fo - sb.file_offset) := Nat.min_le_right _ _
            have hread : fileRead file fo
                  (min sb.buf.length (sb.file_size - (fo - sb.file_offset))) =
                .ok ((file.drop fo).take
                  (min sb.buf.length (sb.file_size - (fo - sb.file_offset)))) := by
              rw [fileRead, if_neg (by omega)]
            rw [SectionBuffer.read_bytes_at, if_neg hfast, if_neg c1, if_neg c2,
              if_neg c3, if_neg cbig, hread, read_bytes_ref, if_pos hrefc]
            dsimp only
            have hbytes_len : ((file.drop fo).take
                  (min sb.buf.length (sb.file_size - (fo - sb.file_offset)))).length =
                min sb.buf.length (sb.file_size - (fo - sb.file_offset)) := by
              rw [List.length_take, List.length_drop]
              omega
            refine ⟨?_, ⟨by omega, by omega, ?_, ?_⟩, rfl, rfl, ?_⟩
            · congr 1
              rw [List.take_append_of_le_length (by rw [hbytes_len]; omega),
                List.take_take]
              have hmin : min len (min sb.buf.length
                  (sb.file_size - (fo - sb.file_offset))) = len := by omega
              rw [hmin]
            · rw [List.length_append, hbytes_len, List.length_drop]
              omega
            · rw [List.take_append_of_le_length (by rw [hbytes_len]),
                List.take_take, Nat.min_self]
            · rw [List.length_append, hbytes_len, List.length_drop]
              omega

/-- The fresh window of `SectionBuffer::new` is a valid cache-window state
for any file: it is positioned at the section start with no valid bytes. -/
theorem window_valid_new (file_offset file_size cap : Nat) (file : List Nat) :
    window_valid (SectionBuffer.new file_offset file_size cap) file := by
  simp [window_valid, SectionBuffer.new]

/-- Witness for C3: a concrete refill-path request on a 2-byte window over
a 4-byte section. -/
theorem read_bytes_at_refines_witness :
    (SectionBuffer.read_bytes_at ⟨0, 4, [0, 0], 0, 0⟩ [1, 2, 3, 4] 1 2).1 =
      read_bytes_ref 0 4 [1, 2, 3, 4] 1 2 ∧
    window_valid (SectionBuffer.read_bytes_at ⟨0, 4, [0, 0], 0, 0⟩ [1, 2, 3, 4] 1 2).2
      [1, 2, 3, 4] ∧
    (SectionBuffer.read_bytes_at ⟨0, 4, [0, 0], 0, 0⟩ [1, 2, 3, 4] 1 2).2.file_offset = 0 ∧
    (SectionBuffer.read_bytes_at ⟨0, 4, [0, 0], 0, 0⟩ [1, 2, 3, 4] 1 2).2.file_size = 4 ∧
    (SectionBuffer.read_bytes_at ⟨0, 4, [0, 0], 0, 0⟩ [1, 2, 3, 4] 1 2).2.buf.length = 2 :=
  read_bytes_at_refines ⟨0, 4, [0, 0], 0, 0⟩ [1, 2, 3, 4] 1 2 (by decide) (by decide)
